import Mathlib

/-!
Shallow embedding of the `dns-message` crate (rthomas/dms), covering the
wire-format codec: `Message::from_bytes` / `Message::to_bytes` and the
helpers they call (src/dns-message/src/{lib,header,message,parser,question,
resource_record,error}.rs).

Conventions of the embedding:
* Rust `u8`/`u16`/`u32` values are `Nat`; wherever the Rust code combines or
  truncates machine integers (`as u16`, `from_be_bytes`, bit extraction) the
  embedding applies the matching `% 2^w` masks.
* Rust `String`s are byte lists (`List Nat`); UTF-8 validity is checked by
  `utf8Valid` exactly where the source calls `from_utf8`.  String equality,
  `split('.')`, `push('.')` and the trailing-`'.'` check coincide with the
  byte-level operations because `'.'` (byte 46) is a single-byte scalar.
* `Ipv4Addr`/`Ipv6Addr` are kept as their 4/16 octet lists.
* Fallible Rust functions return `Res α`: `ok` for `Ok`, `err` for `Err`,
  and `panic` for an abort (out-of-bounds indexing, `todo!()`).
* Diagnostic `String` payloads of errors are dropped; `NameLengthExceeded`
  keeps its `(length, label)` payload.
-/

/-- Error taxonomy of the codec (src/dns-message/src/error.rs). -/
inductive MessageError where
  | ParsingError : MessageError
  | EncodingError : MessageError
  | CircularReference : MessageError
  | ReservedOpCode : MessageError
  | NameLengthExceeded : Nat → List Nat → MessageError
deriving DecidableEq, Repr

/-- Outcome of running a piece of the Rust code: a normal return, an `Err`,
or a panic (out-of-bounds slice/index, `todo!()`). -/
inductive Res (α : Type) where
  | ok : α → Res α
  | err : MessageError → Res α
  | panic : Res α
deriving DecidableEq, Repr

/-- `OpCode` (src/dns-message/src/header.rs). -/
inductive OpCode where
  | Query : OpCode
  | IQuery : OpCode
  | Status : OpCode
  | Unknown : Nat → OpCode
deriving DecidableEq, Repr

/-- `RCode` (src/dns-message/src/header.rs). -/
inductive RCode where
  | NoError : RCode
  | FormatError : RCode
  | ServerFailure : RCode
  | NameError : RCode
  | NotImplemented : RCode
  | Refused : RCode
  | Unknown : Nat → RCode
deriving DecidableEq, Repr

/-- `Type` (src/dns-message/src/question.rs); renamed `RRType` because `Type`
is a Lean keyword. -/
inductive RRType where
  | A | NS | MD | MF | CNAME | SOA | MB | MG | MR | NULL | WKS | PTR
  | HINFO | MINFO | MX | TXT | AAAA | AXFR | MAILB | MAILA | STAR : RRType
  | Unknown : Nat → RRType
deriving DecidableEq, Repr

/-- `Class` (src/dns-message/src/question.rs); renamed `DnsClass` because
Mathlib already declares `Class`. -/
inductive DnsClass where
  | IN | CS | CH | HS | STAR : DnsClass
  | Unknown : Nat → DnsClass
deriving DecidableEq, Repr

/-- `RData` (src/dns-message/src/resource_record.rs).  `A` carries the 4
octets of the `Ipv4Addr`, `AAAA` the 16 octets of the `Ipv6Addr`. -/
inductive RData where
  | A : List Nat → RData
  | NS | MD | MF : RData
  | CNAME : List Nat → RData
  | SOA : List Nat → List Nat → Nat → Nat → Nat → Nat → Nat → RData
  | MB | MG | MR | NULL | WKS | PTR | HINFO | MINFO | MX : RData
  | TXT : List Nat → RData
  | AAAA : List Nat → RData
  | Raw : Nat → List Nat → RData
deriving DecidableEq, Repr

/-- `Header` (src/dns-message/src/header.rs); field order as in the source. -/
structure Header where
  id : Nat
  qr : Bool
  opcode : OpCode
  aa : Bool
  tc : Bool
  rd : Bool
  ra : Bool
  ad : Bool
  cd : Bool
  rcode : RCode
deriving DecidableEq, Repr

/-- `Question` (src/dns-message/src/question.rs). -/
structure Question where
  q_name : List Nat
  q_type : RRType
  q_class : DnsClass
deriving DecidableEq, Repr

/-- `ResourceRecord` (src/dns-message/src/resource_record.rs). -/
structure ResourceRecord where
  name : List Nat
  data : RData
  class' : DnsClass
  ttl : Nat
deriving DecidableEq, Repr

/-- `Message` (src/dns-message/src/message.rs). -/
structure Message where
  header : Header
  questions : List Question
  answers : List ResourceRecord
  name_servers : List ResourceRecord
  additional_records : List ResourceRecord
deriving DecidableEq, Repr

/-- `u16::to_be_bytes` (on a value already reduced mod 2^16 by Rust's types,
matching every `as u16` / `u16` site in the source). -/
def u16be (v : Nat) : List Nat := [v % 65536 / 256, v % 256]

/-- `u32::to_be_bytes`. -/
def u32be (v : Nat) : List Nat :=
  [v % 4294967296 / 16777216, v % 16777216 / 65536, v % 65536 / 256, v % 256]

/-- `OpCode::as_u8` (src/dns-message/src/header.rs): opcodes are 4 bits; an
`Unknown` value above 0xf is a `ReservedOpCode` error. -/
def OpCode.as_u8 : OpCode → Res Nat
  | .Query => .ok 0
  | .IQuery => .ok 1
  | .Status => .ok 2
  | .Unknown opcode => if 15 < opcode then .err .ReservedOpCode else .ok opcode

/-- `RCode::as_u8` (src/dns-message/src/header.rs); the `Unknown` payload is a
`u8` in the source, hence the mask. -/
def RCode.as_u8 : RCode → Nat
  | .NoError => 0
  | .FormatError => 1
  | .ServerFailure => 2
  | .NameError => 3
  | .NotImplemented => 4
  | .Refused => 5
  | .Unknown i => i % 256

/-- `From<Type> for u16` (src/dns-message/src/question.rs); the same table is
inlined in `Type::to_bytes`. -/
def RRType.toU16 : RRType → Nat
  | .A => 1 | .NS => 2 | .MD => 3 | .MF => 4 | .CNAME => 5 | .SOA => 6
  | .MB => 7 | .MG => 8 | .MR => 9 | .NULL => 10 | .WKS => 11 | .PTR => 12
  | .HINFO => 13 | .MINFO => 14 | .MX => 15 | .TXT => 16 | .AAAA => 28
  | .AXFR => 252 | .MAILB => 253 | .MAILA => 254 | .STAR => 255
  | .Unknown i => i % 65536

/-- `From<u16> for Type` (src/dns-message/src/question.rs). -/
def RRType.fromU16 (val : Nat) : RRType :=
  match val with
  | 1 => .A | 2 => .NS | 3 => .MD | 4 => .MF | 5 => .CNAME | 6 => .SOA
  | 7 => .MB | 8 => .MG | 9 => .MR | 10 => .NULL | 11 => .WKS | 12 => .PTR
  | 13 => .HINFO | 14 => .MINFO | 15 => .MX | 16 => .TXT | 28 => .AAAA
  | 252 => .AXFR | 253 => .MAILB | 254 => .MAILA | 255 => .STAR
  | v => .Unknown v

/-- `Class::to_bytes` value table, i.e. the `u16` written for a `Class`. -/
def DnsClass.toU16 : DnsClass → Nat
  | .IN => 1 | .CS => 2 | .CH => 3 | .HS => 4 | .STAR => 255
  | .Unknown i => i % 65536

/-- `From<u16> for Class` (src/dns-message/src/question.rs). -/
def DnsClass.fromU16 (val : Nat) : DnsClass :=
  match val with
  | 1 => .IN | 2 => .CS | 3 => .CH | 4 => .HS | 255 => .STAR
  | v => .Unknown v

/-- `Class::to_bytes` (src/dns-message/src/question.rs): pushes the 2
big-endian bytes, returns the count 2. -/
def DnsClass.to_bytes (c : DnsClass) (buf : List Nat) : Nat × List Nat :=
  (2, buf ++ u16be c.toU16)

/-- `Type::to_bytes` (src/dns-message/src/question.rs). -/
def RRType.to_bytes (t : RRType) (buf : List Nat) : Nat × List Nat :=
  (2, buf ++ u16be t.toU16)

/-- `encode_str` helper: the loop body over `s.split('.')`
(src/dns-message/src/lib.rs, lines 23-38), with the running byte count. -/
def encodeParts : List (List Nat) → List Nat → Nat → Res (Nat × List Nat)
  | [], buf, cnt => .ok (cnt + 1, buf ++ [0])
  | p :: rest, buf, cnt =>
    if 63 < p.length then .err (.NameLengthExceeded p.length p)
    else encodeParts rest (buf ++ p.length :: p) (cnt + 1 + p.length)

/-- `encode_str` (src/dns-message/src/lib.rs): splits a dotted name on `'.'`
(byte 46), emits each label as a length byte followed by its bytes, then a
terminating zero byte; errors if a label exceeds 63 bytes. -/
def encode_str (s : List Nat) (buf : List Nat) : Res (Nat × List Nat) :=
  encodeParts (s.splitOn 46) buf 0

/-- `RData::as_u16` (src/dns-message/src/resource_record.rs). -/
def RData.as_u16 : RData → Nat
  | .A _ => 1 | .NS => 2 | .MD => 3 | .MF => 4 | .CNAME _ => 5
  | .SOA _ _ _ _ _ _ _ => 6 | .MB => 7 | .MG => 8 | .MR => 9 | .NULL => 10
  | .WKS => 11 | .PTR => 12 | .HINFO => 13 | .MINFO => 14 | .MX => 15
  | .TXT _ => 16 | .AAAA _ => 28 | .Raw i _ => i % 65536

/-- `RData::to_bytes` (src/dns-message/src/resource_record.rs): dedicated
cases for `Raw`, `A`, `CNAME`, `SOA`, `TXT`, `AAAA`; every other variant hits
the `todo!()` arm, i.e. panics. -/
def RData.to_bytes : RData → List Nat → Res (Nat × List Nat)
  | .Raw _ v, buf => .ok (v.length, buf ++ v)
  | .A v4, buf => .ok (4, buf ++ v4)
  | .CNAME s, buf => encode_str s buf
  | .SOA mname rname serial refresh retry expire minimum, buf =>
    match encode_str mname buf with
    | .err e => .err e
    | .panic => .panic
    | .ok (n1, buf) =>
      match encode_str rname buf with
      | .err e => .err e
      | .panic => .panic
      | .ok (n2, buf) =>
        .ok (n1 + n2 + 20,
          buf ++ u32be serial ++ u32be refresh ++ u32be retry ++
            u32be expire ++ u32be minimum)
  | .TXT s, buf => .ok (s.length, buf ++ s)
  | .AAAA v6, buf => .ok (16, buf ++ v6)
  | _, _ => .panic

/-- `ResourceRecord::to_bytes` (src/dns-message/src/resource_record.rs):
name, type, class, ttl, then the RDATA encoded into a scratch buffer so its
length can be written first. -/
def ResourceRecord.to_bytes (r : ResourceRecord) (buf : List Nat) :
    Res (Nat × List Nat) :=
  match encode_str r.name buf with
  | .err e => .err e
  | .panic => .panic
  | .ok (n1, buf) =>
    let buf := buf ++ u16be r.data.as_u16
    let (nc, buf) := r.class'.to_bytes buf
    let buf := buf ++ u32be r.ttl
    match r.data.to_bytes [] with
    | .err e => .err e
    | .panic => .panic
    | .ok (rdlength, rdata) =>
      .ok (n1 + 2 + nc + 4 + rdlength + 2, buf ++ u16be rdlength ++ rdata)

/-- `Question::to_bytes` (src/dns-message/src/question.rs). -/
def Question.to_bytes (q : Question) (buf : List Nat) : Res (Nat × List Nat) :=
  match encode_str q.q_name buf with
  | .err e => .err e
  | .panic => .panic
  | .ok (n1, buf) =>
    let (n2, buf) := q.q_type.to_bytes buf
    let (n3, buf) := q.q_class.to_bytes buf
    .ok (n1 + n2 + n3, buf)

/-- `Header::to_bytes` (src/dns-message/src/header.rs): id, two flag bytes,
then the four section counts taken from the live section lengths of the
message (`len() as u16`).  NOTE (faithful to the source, lines 79-81): the
second flag byte's bit 7 is written from `rd`, not `ra`. -/
def Header.to_bytes (h : Header) (m : Message) (buf : List Nat) :
    Res (Nat × List Nat) :=
  match h.opcode.as_u8 with
  | .err e => .err e
  | .panic => .panic
  | .ok op =>
    let b2 := (if h.qr then 128 else 0) ||| (op <<< 3) |||
      (if h.aa then 4 else 0) ||| (if h.tc then 2 else 0) |||
      (if h.rd then 1 else 0)
    let b3 := (if h.rd then 128 else 0) ||| (if h.ad then 32 else 0) |||
      (if h.cd then 16 else 0) ||| h.rcode.as_u8
    .ok (12, buf ++ u16be h.id ++ [b2, b3] ++
      u16be m.questions.length ++ u16be m.answers.length ++
      u16be m.name_servers.length ++ u16be m.additional_records.length)

/-- One `for x in section { byte_count += x.to_bytes(buf)?; }` loop of
`Message::to_bytes`. -/
def encodeSection {α : Type} (f : α → List Nat → Res (Nat × List Nat)) :
    List α → Nat → List Nat → Res (Nat × List Nat)
  | [], cnt, buf => .ok (cnt, buf)
  | x :: rest, cnt, buf =>
    match f x buf with
    | .err e => .err e
    | .panic => .panic
    | .ok (n, buf) => encodeSection f rest (cnt + n) buf

/-- `Message::to_bytes` (src/dns-message/src/message.rs): header, then the
four sections in order.  The `byte_count > 512` check in the source does
nothing and is omitted. -/
def Message.to_bytes (m : Message) (buf : List Nat) : Res (Nat × List Nat) :=
  match m.header.to_bytes m buf with
  | .err e => .err e
  | .panic => .panic
  | .ok (n, buf) =>
    match encodeSection Question.to_bytes m.questions n buf with
    | .err e => .err e
    | .panic => .panic
    | .ok (n, buf) =>
      match encodeSection ResourceRecord.to_bytes m.answers n buf with
      | .err e => .err e
      | .panic => .panic
      | .ok (n, buf) =>
        match encodeSection ResourceRecord.to_bytes m.name_servers n buf with
        | .err e => .err e
        | .panic => .panic
        | .ok (n, buf) =>
          match encodeSection ResourceRecord.to_bytes m.additional_records n buf with
          | .err e => .err e
          | .panic => .panic
          | .ok (n, buf) => .ok (n, buf)


/-- Validity of a byte sequence under Rust's `str::from_utf8` /
`String::from_utf8` (strict UTF-8: no overlongs, no surrogates,
max U+10FFFF). -/
def utf8Valid : List Nat → Bool
  | [] => true
  | b :: rest =>
    if b ≤ 0x7F then utf8Valid rest
    else if 0xC2 ≤ b ∧ b ≤ 0xDF then
      match rest with
      | c1 :: rest2 =>
        if 0x80 ≤ c1 ∧ c1 ≤ 0xBF then utf8Valid rest2 else false
      | _ => false
    else if 0xE0 ≤ b ∧ b ≤ 0xEF then
      match rest with
      | c1 :: c2 :: rest2 =>
        let lo1 := if b = 0xE0 then 0xA0 else 0x80
        let hi1 := if b = 0xED then 0x9F else 0xBF
        if (lo1 ≤ c1 ∧ c1 ≤ hi1) ∧ (0x80 ≤ c2 ∧ c2 ≤ 0xBF) then utf8Valid rest2
        else false
      | _ => false
    else if 0xF0 ≤ b ∧ b ≤ 0xF4 then
      match rest with
      | c1 :: c2 :: c3 :: rest2 =>
        let lo1 := if b = 0xF0 then 0x90 else 0x80
        let hi1 := if b = 0xF4 then 0x8F else 0xBF
        if (lo1 ≤ c1 ∧ c1 ≤ hi1) ∧ (0x80 ≤ c2 ∧ c2 ≤ 0xBF) ∧
            (0x80 ≤ c3 ∧ c3 ≤ 0xBF) then utf8Valid rest2
        else false
      | _ => false
    else false

/-- The decode-time `Name` intermediate (src/dns-message/src/parser.rs):
a literal label, an unresolved 14-bit compression offset, or a resolved
pointer's label sequence. -/
inductive Name where
  | name : List Nat → Name
  | pointer : Nat → Name
  | resolvedPtr : List Name → Name
deriving Repr

/-- `RawHeader` (src/dns-message/src/parser.rs). -/
structure RawHeader where
  header : Header
  qd_count : Nat
  an_count : Nat
  ns_count : Nat
  ar_count : Nat
deriving Repr

/-- `RawQuestion` (src/dns-message/src/parser.rs). -/
structure RawQuestion where
  qname : List Name
  qtype : RRType
  qclass : DnsClass
deriving Repr

/-- `RawResourceRecord` (src/dns-message/src/parser.rs). -/
structure RawResourceRecord where
  name : List Name
  rtype : RRType
  class' : DnsClass
  ttl : Nat
  rdata : List Nat
deriving Repr

/-- `read_u16` (src/dns-message/src/parser.rs): take 2 bytes, big-endian. -/
def read_u16 : List Nat → Res (List Nat × Nat)
  | a :: b :: rest => .ok (rest, (a % 256) * 256 + b % 256)
  | _ => .err .ParsingError

/-- `read_u32` (src/dns-message/src/parser.rs): take 4 bytes, big-endian. -/
def read_u32 : List Nat → Res (List Nat × Nat)
  | a :: b :: c :: d :: rest =>
    .ok (rest, (a % 256) * 16777216 + (b % 256) * 65536 + (c % 256) * 256 +
      d % 256)
  | _ => .err .ParsingError

/-- The opcode table of `read_header` (src/dns-message/src/parser.rs,
lines 146-151): 4-bit values outside 0..2 become `Unknown`. -/
def decodeOpCode (n : Nat) : OpCode :=
  match n with
  | 0 => .Query
  | 1 => .IQuery
  | 2 => .Status
  | n => .Unknown n

/-- The rcode table of `read_header` (src/dns-message/src/parser.rs,
lines 159-167): 4-bit values outside 0..5 become `Unknown`. -/
def decodeRCode (n : Nat) : RCode :=
  match n with
  | 0 => .NoError
  | 1 => .FormatError
  | 2 => .ServerFailure
  | 3 => .NameError
  | 4 => .NotImplemented
  | 5 => .Refused
  | n => .Unknown n

/-- `read_header` (src/dns-message/src/parser.rs): takes 12 bytes; id, the
16-bit flag word read bit-by-bit in the order
qr(1) opcode(4) aa(1) tc(1) rd(1) ra(1) reserved-zero(1) ad(1) cd(1)
rcode(4), then the four section counts.  The reserved bit must be 0
(`tag_bits(0, 1)`), otherwise a parse error. -/
def read_header (input : List Nat) : Res (List Nat × RawHeader) :=
  match input with
  | b0 :: b1 :: b2 :: b3 :: b4 :: b5 :: b6 :: b7 :: b8 :: b9 :: b10 :: b11 ::
      rest =>
    let id := (b0 % 256) * 256 + b1 % 256
    let c2 := b2 % 256
    let c3 := b3 % 256
    if c3 / 64 % 2 ≠ 0 then .err .ParsingError
    else
      .ok (rest,
        { header :=
            { id := id
              qr := c2 / 128 % 2 == 1
              opcode := decodeOpCode (c2 / 8 % 16)
              aa := c2 / 4 % 2 == 1
              tc := c2 / 2 % 2 == 1
              rd := c2 % 2 == 1
              ra := c3 / 128 % 2 == 1
              ad := c3 / 32 % 2 == 1
              cd := c3 / 16 % 2 == 1
              rcode := decodeRCode (c3 % 16) }
          qd_count := (b4 % 256) * 256 + b5 % 256
          an_count := (b6 % 256) * 256 + b7 % 256
          ns_count := (b8 % 256) * 256 + b9 % 256
          ar_count := (b10 % 256) * 256 + b11 % 256 })
  | _ => .err .ParsingError

/-- The `read_names` loop (src/dns-message/src/parser.rs), with explicit
fuel; each iteration consumes at least one input byte, so
`input.length + 1` fuel always suffices (`none` = fuel ran out, which the
wrapper `read_names` never hits).  A `11`-tagged byte yields a 14-bit
pointer and ends the name; a zero length byte ends the name; otherwise
`len` bytes are taken as a label, which must be valid UTF-8. -/
def readNamesF : Nat → List Nat → Option (Res (List Nat × List Name))
  | 0, _ => none
  | _ + 1, [] => some (.err .ParsingError)
  | fuel + 1, b :: rest =>
    let flags := b / 64 % 4
    if flags = 3 then
      match rest with
      | b2 :: rest2 =>
        some (.ok (rest2, [Name.pointer ((b % 64) * 256 + b2 % 256)]))
      | [] => some (.err .ParsingError)
    else
      let len := b % 256
      if len = 0 then some (.ok (rest, []))
      else if rest.length < len then some (.err .ParsingError)
      else
        let label := rest.take len
        if utf8Valid label then
          match readNamesF fuel (rest.drop len) with
          | some (.ok (rem, names)) => some (.ok (rem, Name.name label :: names))
          | r => r
        else some (.err .ParsingError)

/-- `read_names` (src/dns-message/src/parser.rs). -/
def read_names (input : List Nat) : Res (List Nat × List Name) :=
  match readNamesF (input.length + 1) input with
  | some r => r
  | none => .panic

/-- `read_question` (src/dns-message/src/parser.rs). -/
def read_question (input : List Nat) : Res (List Nat × RawQuestion) :=
  match read_names input with
  | .err e => .err e
  | .panic => .panic
  | .ok (input, qname) =>
    match read_u16 input with
    | .err e => .err e
    | .panic => .panic
    | .ok (input, q) =>
      match read_u16 input with
      | .err e => .err e
      | .panic => .panic
      | .ok (input, c) =>
        .ok (input,
          { qname := qname, qtype := RRType.fromU16 q,
            qclass := DnsClass.fromU16 c })

/-- `read_resource_record` (src/dns-message/src/parser.rs): name, type,
class, ttl, rdlength, then exactly `rdlength` raw RDATA bytes. -/
def read_resource_record (input : List Nat) :
    Res (List Nat × RawResourceRecord) :=
  match read_names input with
  | .err e => .err e
  | .panic => .panic
  | .ok (input, name) =>
    match read_u16 input with
    | .err e => .err e
    | .panic => .panic
    | .ok (input, r) =>
      match read_u16 input with
      | .err e => .err e
      | .panic => .panic
      | .ok (input, c) =>
        match read_u32 input with
        | .err e => .err e
        | .panic => .panic
        | .ok (input, ttl) =>
          match read_u16 input with
          | .err e => .err e
          | .panic => .panic
          | .ok (input, rdlength) =>
            if input.length < rdlength then .err .ParsingError
            else
              .ok (input.drop rdlength,
                { name := name, rtype := RRType.fromU16 r,
                  class' := DnsClass.fromU16 c, ttl := ttl,
                  rdata := input.take rdlength })

/-- One count-driven section loop of `as_message`
(src/dns-message/src/parser.rs). -/
def readN {α : Type} (reader : List Nat → Res (List Nat × α)) :
    Nat → List Nat → Res (List Nat × List α)
  | 0, input => .ok (input, [])
  | n + 1, input =>
    match reader input with
    | .err e => .err e
    | .panic => .panic
    | .ok (input, x) =>
      match readN reader n input with
      | .err e => .err e
      | .panic => .panic
      | .ok (input, xs) => .ok (input, x :: xs)

/-- The body of the `resolve_names` loop (src/dns-message/src/parser.rs,
lines 388-415), parameterised by the recursive call `recur` used for the
names read at a pointer's offset.  A pointer already in `seen_ptrs` is a
`CircularReference` error; a fresh pointer is inserted into the set, the
names at `input[ptr..]` are read from the full original buffer and
recursively resolved, and the element is replaced by `resolvedPtr`.
`input[ptr..input.len()]` panics in Rust when `ptr > input.len()`. -/
def resolveStep (input : List Nat)
    (recur : List Name → Finset Nat → Option (Res (List Name × Finset Nat))) :
    List Name → Finset Nat → Option (Res (List Name × Finset Nat))
  | [], seen => some (.ok ([], seen))
  | .pointer ptr :: rest, seen =>
    if ptr ∈ seen then some (.err .CircularReference)
    else if input.length < ptr then some .panic
    else
      match read_names (input.drop ptr) with
      | .err e => some (.err e)
      | .panic => some .panic
      | .ok (_, inner) =>
        match recur inner (insert ptr seen) with
        | none => none
        | some (.err e) => some (.err e)
        | some .panic => some .panic
        | some (.ok (inner', seen')) =>
          match resolveStep input recur rest seen' with
          | some (.ok (rest', seen'')) =>
            some (.ok (Name.resolvedPtr inner' :: rest', seen''))
          | r => r
  | n :: rest, seen =>
    match resolveStep input recur rest seen with
    | some (.ok (rest', seen')) => some (.ok (n :: rest', seen'))
    | r => r

/-- `resolve_names` with explicit fuel bounding the pointer recursion
depth; `none` means the fuel ran out, which `resolveFuel` makes impossible
(every nesting level inserts a fresh offset into the visited set and all
offsets produced by `read_names` are 14-bit). -/
def resolveNamesF : Nat → List Nat → List Name → Finset Nat →
    Option (Res (List Name × Finset Nat))
  | 0, _, _, _ => none
  | fuel + 1, input, names, seen =>
    resolveStep input (resolveNamesF fuel input) names seen

/-- Fuel for `resolve_names`: one more than the bound 16385 on the pointer
recursion depth (16384 distinct 14-bit offsets plus the top-level name). -/
def resolveFuel : Nat := 16386

/-- `resolve_names` (src/dns-message/src/parser.rs): resolves all
`Name.pointer` entries against the full original buffer, tracking visited
offsets in `seen_ptrs`.  The `none` branch is unreachable (see
`resolveNamesF_isSome`). -/
def resolve_names (input : List Nat) (names : List Name) (seen : Finset Nat) :
    Res (List Name × Finset Nat) :=
  match resolveNamesF resolveFuel input names seen with
  | some r => r
  | none => .panic

/-- Drop one trailing `'.'` (the `name.pop()` at the end of
`flatten_to_string`). -/
def dropDot (s : List Nat) : List Nat :=
  if s.getLast? = some 46 then s.dropLast else s

mutual

/-- Contribution of one `Name` to `flatten_to_string`
(src/dns-message/src/parser.rs, lines 418-441): a literal label is pushed
followed by `'.'`; a resolved pointer contributes its own flattening
(which already removed its trailing dot); an unresolved pointer is only
logged and contributes nothing. -/
def flattenAux : Name → List Nat
  | .name part => part ++ [46]
  | .pointer _ => []
  | .resolvedPtr ns => dropDot (flattenList ns)

/-- The fold of `flattenAux` over a name list. -/
def flattenList : List Name → List Nat
  | [] => []
  | n :: rest => flattenAux n ++ flattenList rest

end

/-- `flatten_to_string` (src/dns-message/src/parser.rs): concatenate, then
remove the trailing `'.'`. -/
def flatten_to_string (names : List Name) : List Nat :=
  dropDot (flattenList names)

/-- `From<RawQuestion> for Question` (src/dns-message/src/parser.rs). -/
def questionFromRaw (iq : RawQuestion) : Question :=
  { q_name := flatten_to_string iq.qname, q_type := iq.qtype,
    q_class := iq.qclass }

/-- `from_irr` (src/dns-message/src/parser.rs, lines 63-111): interpret the
RDATA bytes according to the record type.  Faithful to the source:
* `A` indexes `rdata[0..3]` directly — fewer than 4 RDATA bytes is a panic;
* `AAAA` copies `input[0..16]` from the start of the whole message buffer
  (not from the record's RDATA) — under 16 bytes of message is a panic;
* `CNAME`/`SOA` re-read and resolve names from the RDATA against the full
  buffer with fresh visited sets;
* `TXT` requires the RDATA to be valid UTF-8 (`EncodingError` otherwise);
* everything else becomes `Raw`. -/
def from_irr (input : List Nat) (irr : RawResourceRecord) :
    Res ResourceRecord :=
  let rdataRes : Res RData :=
    match irr.rtype with
    | .A =>
      if 4 ≤ irr.rdata.length then .ok (.A (irr.rdata.take 4)) else .panic
    | .CNAME =>
      match read_names irr.rdata with
      | .err e => .err e
      | .panic => .panic
      | .ok (_, names) =>
        match resolve_names input names ∅ with
        | .err e => .err e
        | .panic => .panic
        | .ok (names, _) => .ok (.CNAME (flatten_to_string names))
    | .SOA =>
      match read_names irr.rdata with
      | .err e => .err e
      | .panic => .panic
      | .ok (i, mnames) =>
        match resolve_names input mnames ∅ with
        | .err e => .err e
        | .panic => .panic
        | .ok (mnames, _) =>
          match read_names i with
          | .err e => .err e
          | .panic => .panic
          | .ok (i, rnames) =>
            match resolve_names input rnames ∅ with
            | .err e => .err e
            | .panic => .panic
            | .ok (rnames, _) =>
              match read_u32 i with
              | .err e => .err e
              | .panic => .panic
              | .ok (i, serial) =>
                match read_u32 i with
                | .err e => .err e
                | .panic => .panic
                | .ok (i, refresh) =>
                  match read_u32 i with
                  | .err e => .err e
                  | .panic => .panic
                  | .ok (i, retry) =>
                    match read_u32 i with
                    | .err e => .err e
                    | .panic => .panic
                    | .ok (i, expire) =>
                      match read_u32 i with
                      | .err e => .err e
                      | .panic => .panic
                      | .ok (_, minimum) =>
                        .ok (.SOA (flatten_to_string mnames)
                          (flatten_to_string rnames) serial refresh retry
                          expire minimum)
    | .TXT =>
      if utf8Valid irr.rdata then .ok (.TXT irr.rdata) else .err .EncodingError
    | .AAAA =>
      if 16 ≤ input.length then .ok (.AAAA (input.take 16)) else .panic
    | _ => .ok (.Raw irr.rtype.toU16 irr.rdata)
  match rdataRes with
  | .err e => .err e
  | .panic => .panic
  | .ok rdata =>
    .ok { name := flatten_to_string irr.name, data := rdata,
          class' := irr.class', ttl := irr.ttl }

/-- The `for q in questions { resolve_names(...)? }` pass of `as_message`,
with a fresh visited set per top-level name. -/
def resolveQuestionList (input : List Nat) :
    List RawQuestion → Res (List RawQuestion)
  | [] => .ok []
  | q :: rest =>
    match resolve_names input q.qname ∅ with
    | .err e => .err e
    | .panic => .panic
    | .ok (names, _) =>
      match resolveQuestionList input rest with
      | .err e => .err e
      | .panic => .panic
      | .ok rs => .ok ({ q with qname := names } :: rs)

/-- The record analogue of `resolveQuestionList`. -/
def resolveRecordList (input : List Nat) :
    List RawResourceRecord → Res (List RawResourceRecord)
  | [] => .ok []
  | r :: rest =>
    match resolve_names input r.name ∅ with
    | .err e => .err e
    | .panic => .panic
    | .ok (names, _) =>
      match resolveRecordList input rest with
      | .err e => .err e
      | .panic => .panic
      | .ok rs => .ok ({ r with name := names } :: rs)

/-- The `.map(|irr| from_irr(&original_input, irr)).collect::<Result<_>>()`
step of `as_message`. -/
def mapFromIrr (input : List Nat) :
    List RawResourceRecord → Res (List ResourceRecord)
  | [] => .ok []
  | r :: rest =>
    match from_irr input r with
    | .err e => .err e
    | .panic => .panic
    | .ok rr =>
      match mapFromIrr input rest with
      | .err e => .err e
      | .panic => .panic
      | .ok rrs => .ok (rr :: rrs)

/-- `as_message` (src/dns-message/src/parser.rs): header, count-driven
section loops, then the pointer-resolution pass over every section against
the original buffer, then conversion to the public `Message`. -/
def as_message (input : List Nat) : Res Message :=
  match read_header input with
  | .err e => .err e
  | .panic => .panic
  | .ok (i, rh) =>
    match readN read_question rh.qd_count i with
    | .err e => .err e
    | .panic => .panic
    | .ok (i, questions) =>
      match readN read_resource_record rh.an_count i with
      | .err e => .err e
      | .panic => .panic
      | .ok (i, answers) =>
        match readN read_resource_record rh.ns_count i with
        | .err e => .err e
        | .panic => .panic
        | .ok (i, name_servers) =>
          match readN read_resource_record rh.ar_count i with
          | .err e => .err e
          | .panic => .panic
          | .ok (_, additional_records) =>
            match resolveQuestionList input questions with
            | .err e => .err e
            | .panic => .panic
            | .ok questions =>
              match resolveRecordList input answers with
              | .err e => .err e
              | .panic => .panic
              | .ok answers =>
                match resolveRecordList input name_servers with
                | .err e => .err e
                | .panic => .panic
                | .ok name_servers =>
                  match resolveRecordList input additional_records with
                  | .err e => .err e
                  | .panic => .panic
                  | .ok additional_records =>
                    match mapFromIrr input answers with
                    | .err e => .err e
                    | .panic => .panic
                    | .ok answers =>
                      match mapFromIrr input name_servers with
                      | .err e => .err e
                      | .panic => .panic
                      | .ok name_servers =>
                        match mapFromIrr input additional_records with
                        | .err e => .err e
                        | .panic => .panic
                        | .ok additional_records =>
                          .ok { header := rh.header,
                                questions := questions.map questionFromRaw,
                                answers := answers,
                                name_servers := name_servers,
                                additional_records := additional_records }

/-- `Message::from_bytes` (src/dns-message/src/message.rs) via
`read_message` (src/dns-message/src/parser.rs, line 314): `read_message`
wraps `as_message` in nom's `map_res`, whose `FromExternalError` instance
for `nom::error::Error` discards the inner `MessageError`; the `?` in
`from_bytes` then converts the nom error through `From<nom::Err<E>>`
(src/dns-message/src/error.rs, lines 22-26) into `ParsingError`.  Hence
every decode-time error — whatever variant `as_message` raised, including
`CircularReference` and `EncodingError` — surfaces from the public API as
`ParsingError`; successful decodes and panics are unchanged. -/
def Message.from_bytes (input : List Nat) : Res Message :=
  match as_message input with
  | .ok m => .ok m
  | .err _ => .err .ParsingError
  | .panic => .panic


/-- The wire image of a dotted name: each label of the split as a length
byte followed by its bytes, terminated by a zero byte (the output shape
promised by the spec for `encode_str`). -/
def nameWire : List (List Nat) → List Nat
  | [] => [0]
  | p :: rest => (p.length :: p) ++ nameWire rest

/-- A 12-byte message whose header has `ra = 1` and `rd = 0` and no
records: the round-trip failing input for C1. -/
def c1_input : List Nat := [0, 0, 0, 128, 0, 0, 0, 0, 0, 0, 0, 0]

/-- The decode of `c1_input`: `ra = true`, `rd = false`. -/
def c1_msg : Message :=
  { header := { id := 0, qr := false, opcode := .Query, aa := false,
                tc := false, rd := false, ra := true, ad := false,
                cd := false, rcode := .NoError },
    questions := [], answers := [], name_servers := [],
    additional_records := [] }

/-- What `c1_msg` re-encodes to: all-zero flag bytes, because the encoder
writes `rd` (false) into bit 7 of the second flag byte. -/
def c1_reencoded : List Nat := [0, 0, 0, 0, 0, 0, 0, 0, 0, 0, 0, 0]

/-- The decode of `c1_reencoded`: `ra` has become `false`. -/
def c1_msg2 : Message :=
  { header := { id := 0, qr := false, opcode := .Query, aa := false,
                tc := false, rd := false, ra := false, ad := false,
                cd := false, rcode := .NoError },
    questions := [], answers := [], name_servers := [],
    additional_records := [] }

/-- C1: the round-trip claim `decode(encode(m)) = m` fails on the code.
`c1_input` decodes successfully to a message with `ra = true`, but
re-encoding and re-decoding yields `ra = false` (the encoder writes `rd`
into the RA bit, src/dns-message/src/header.rs lines 79-81), so
`decode(encode(m)) ≠ m`. -/
theorem c1_round_trip_fails_on_ra :
    Message.from_bytes c1_input = .ok c1_msg ∧
    c1_msg.header.ra = true ∧ c1_msg.header.rd = false ∧
    Message.to_bytes c1_msg [] = .ok (12, c1_reencoded) ∧
    Message.from_bytes c1_reencoded = .ok c1_msg2 ∧
    c1_msg2.header.ra = false ∧ c1_msg2 ≠ c1_msg := by decide

/-- The RDATA carried by the AAAA record of `c4_input`. -/
def c4_rdata : List Nat := [1, 2, 3, 4, 5, 6, 7, 8, 9, 10, 11, 12, 13, 14, 15, 16]

/-- A 39-byte message with one answer record of type AAAA (28) whose
16-byte RDATA is `c4_rdata`. -/
def c4_input : List Nat :=
  [0, 0, 0, 0, 0, 0, 0, 1, 0, 0, 0, 0] ++
  [0] ++ [0, 28] ++ [0, 1] ++ [0, 0, 0, 0] ++ [0, 16] ++ c4_rdata

/-- The decode of `c4_input`: the AAAA payload is the first 16 bytes of the
whole message buffer, not the record's RDATA. -/
def c4_msg : Message :=
  { header := { id := 0, qr := false, opcode := .Query, aa := false,
                tc := false, rd := false, ra := false, ad := false,
                cd := false, rcode := .NoError },
    questions := [],
    answers := [{ name := [], data := .AAAA [0, 0, 0, 0, 0, 0, 0, 1, 0, 0, 0, 0, 0, 0, 28, 0],
                  class' := .IN, ttl := 0 }],
    name_servers := [], additional_records := [] }

/-- C4: decoding an AAAA record takes its 16 address bytes from
`input[0..16]` of the whole message (src/dns-message/src/parser.rs lines
95-99), not from the record's own RDATA: on `c4_input` the decoded value is
the message's first 16 bytes (header and record prelude), which differ from
the record's RDATA `c4_rdata`. -/
theorem c4_aaaa_reads_message_start :
    Message.from_bytes c4_input = .ok c4_msg ∧
    c4_msg.answers.map (fun r => r.data) = [.AAAA (c4_input.take 16)] ∧
    c4_input.take 16 ≠ c4_rdata := by decide

/-- A 23-byte message with one answer record of type A (1) whose rdlength
is 0: `from_irr` indexes `rdata[0]` out of bounds. -/
def c10_input : List Nat :=
  [0, 0, 0, 0, 0, 0, 0, 1, 0, 0, 0, 0] ++
  [0] ++ [0, 1] ++ [0, 1] ++ [0, 0, 0, 0] ++ [0, 0]

/-- C10: `Message::from_bytes` is not total — an A record with fewer than 4
RDATA bytes makes `from_irr` index `rdata[0..3]` out of bounds
(src/dns-message/src/parser.rs lines 65-70), aborting with a panic instead
of returning an error. -/
theorem c10_short_a_record_panics :
    Message.from_bytes c10_input = .panic := by decide

/-- C5 counterexample: encoding `RData::NS` does not fall back to the `Raw`
path — it hits the `todo!()` arm of `RData::to_bytes`
(src/dns-message/src/resource_record.rs line 206) and panics instead of
returning a result. -/
theorem c5_ns_encode_panics : RData.to_bytes .NS [] = .panic := by rfl

/-- C5 as amended: every `RData` variant without a dedicated encode case
(`NS`, `MD`, `MF`, `MB`, `MG`, `MR`, `NULL`, `WKS`, `PTR`, `HINFO`,
`MINFO`, `MX`) panics via `todo!()`; `RData::to_bytes` is total only over
`Raw`, `A`, `CNAME`, `SOA`, `TXT` and `AAAA`. -/
theorem c5_no_case_variants_panic (r : RData) (buf : List Nat)
    (h : r = .NS ∨ r = .MD ∨ r = .MF ∨ r = .MB ∨ r = .MG ∨ r = .MR ∨
         r = .NULL ∨ r = .WKS ∨ r = .PTR ∨ r = .HINFO ∨ r = .MINFO ∨
         r = .MX) :
    RData.to_bytes r buf = .panic := by
  rcases h with h | h | h | h | h | h | h | h | h | h | h | h <;> subst h <;> rfl

/-- Witness for `c5_no_case_variants_panic` at `MX`. -/
theorem c5_no_case_variants_panic_witness :
    RData.to_bytes .MX [] = .panic :=
  c5_no_case_variants_panic .MX [] (by decide)

/-- A header with `ra = true` and `rd = false` (all other flags clear). -/
def c2_header : Header :=
  { id := 0, qr := false, opcode := .Query, aa := false, tc := false,
    rd := false, ra := true, ad := false, cd := false, rcode := .NoError }

/-- An empty message carrying `c2_header`. -/
def c2_message : Message :=
  { header := c2_header, questions := [], answers := [], name_servers := [],
    additional_records := [] }

/-- C2 counterexample: for `c2_header` (`ra = true`, everything else
clear/zero) the claimed second flag byte `ra<<7 | ad<<5 | cd<<4 | rcode`
is 128, but `Header::to_bytes` writes 0 — bit 7 is taken from `rd`, not
`ra`. -/
theorem c2_second_flag_byte_not_ra :
    Header.to_bytes c2_header c2_message [] =
      .ok (12, [0, 0, 0, 0, 0, 0, 0, 0, 0, 0, 0, 0]) ∧
    ((if c2_header.ra then 128 else 0) + (if c2_header.ad then 32 else 0) +
      (if c2_header.cd then 16 else 0) + c2_header.rcode.as_u8 = 128) ∧
    [0, 0, 0, 0, 0, 0, 0, 0, 0, 0, 0, 0].get? 3 ≠ some 128 := by decide

/-- The first flag byte's OR-accumulation equals plain addition (all bits
disjoint while the opcode fits in 4 bits). -/
theorem flagByte1_eq (qr aa tc rd : Bool) (op : Nat) (hop : op ≤ 15) :
    ((if qr then 128 else 0) ||| (op <<< 3) ||| (if aa then 4 else 0) |||
      (if tc then 2 else 0) ||| (if rd then 1 else 0)) =
    (if qr then 128 else 0) + 8 * op + (if aa then 4 else 0) +
      (if tc then 2 else 0) + (if rd then 1 else 0) := by
  cases qr <;> cases aa <;> cases tc <;> cases rd <;>
    simp only [if_true, if_false, Bool.false_eq_true] <;>
    interval_cases op <;> rfl

/-- The second flag byte's OR-accumulation equals plain addition while the
rcode fits in 4 bits. -/
theorem flagByte2_eq (rd ad cd : Bool) (rc : Nat) (hrc : rc ≤ 15) :
    ((if rd then 128 else 0) ||| (if ad then 32 else 0) |||
      (if cd then 16 else 0) ||| rc) =
    (if rd then 128 else 0) + (if ad then 32 else 0) +
      (if cd then 16 else 0) + rc := by
  cases rd <;> cases ad <;> cases cd <;>
    simp only [if_true, if_false, Bool.false_eq_true] <;>
    interval_cases rc <;> rfl

/-- `Header::to_bytes` on an empty buffer, written out: id bytes, the two
flag bytes, and the four section counts from the live section lengths. -/
theorem header_to_bytes_ok (h : Header) (m : Message) (op : Nat)
    (hop : h.opcode.as_u8 = .ok op) :
    Header.to_bytes h m [] = .ok (12,
      [h.id % 65536 / 256, h.id % 256,
       (if h.qr then 128 else 0) ||| (op <<< 3) ||| (if h.aa then 4 else 0) |||
         (if h.tc then 2 else 0) ||| (if h.rd then 1 else 0),
       (if h.rd then 128 else 0) ||| (if h.ad then 32 else 0) |||
         (if h.cd then 16 else 0) ||| h.rcode.as_u8] ++
      u16be m.questions.length ++ u16be m.answers.length ++
      u16be m.name_servers.length ++ u16be m.additional_records.length) := by
  unfold Header.to_bytes
  rw [hop]
  simp [u16be]

/-- C2 as amended: in the second flag byte written by `Header::to_bytes`,
bit 7 is the header's `rd` field (not `ra`); bits 5, 4 and the low 4 bits
are `ad`, `cd` and the rcode as claimed. -/
theorem c2_second_flag_byte_rd (h : Header) (m : Message) (op : Nat)
    (hop : h.opcode.as_u8 = .ok op) (hrc : h.rcode.as_u8 ≤ 15) :
    ∃ out, Header.to_bytes h m [] = .ok (12, out) ∧
      out.get? 3 = some ((if h.rd then 128 else 0) +
        (if h.ad then 32 else 0) + (if h.cd then 16 else 0) +
        h.rcode.as_u8) := by
  refine ⟨_, header_to_bytes_ok h m op hop, ?_⟩
  simp [u16be, List.get?, flagByte2_eq h.rd h.ad h.cd _ hrc]

/-- Witness for `c2_second_flag_byte_rd`: a header with `rd = true` and
`rcode = Refused` in an empty message. -/
theorem c2_second_flag_byte_rd_witness :
    (OpCode.as_u8 .Query = .ok 0 ∧ RCode.as_u8 .Refused ≤ 15) ∧
    ∃ out,
      Header.to_bytes
        { id := 7, qr := false, opcode := .Query, aa := false, tc := false,
          rd := true, ra := false, ad := false, cd := false,
          rcode := .Refused }
        { header :=
            { id := 7, qr := false, opcode := .Query, aa := false,
              tc := false, rd := true, ra := false, ad := false, cd := false,
              rcode := .Refused },
          questions := [], answers := [], name_servers := [],
          additional_records := [] } [] = .ok (12, out) ∧
      out.get? 3 = some 133 :=
  ⟨⟨by decide, by decide⟩, by
    have h := c2_second_flag_byte_rd
      { id := 7, qr := false, opcode := .Query, aa := false, tc := false,
        rd := true, ra := false, ad := false, cd := false, rcode := .Refused }
      { header :=
          { id := 7, qr := false, opcode := .Query, aa := false, tc := false,
            rd := true, ra := false, ad := false, cd := false,
            rcode := .Refused },
        questions := [], answers := [], name_servers := [],
        additional_records := [] } 0 (by decide) (by decide)
    simpa using h⟩

/-- When every label fits in 63 bytes, the `encode_str` loop appends the
length-prefixed labels and the terminating zero, and counts the appended
bytes. -/
theorem encodeParts_ok_of_short :
    ∀ (parts : List (List Nat)) (buf : List Nat) (cnt : Nat),
      (∀ p ∈ parts, p.length ≤ 63) →
      encodeParts parts buf cnt =
        .ok (cnt + (nameWire parts).length, buf ++ nameWire parts) := by
  intro parts
  induction parts with
  | nil => intro buf cnt _; simp [encodeParts, nameWire]
  | cons p rest ih =>
    intro buf cnt hall
    have h63 : ¬63 < p.length :=
      not_lt.mpr (hall p (List.mem_cons_self p rest))
    have hrest : ∀ q ∈ rest, q.length ≤ 63 :=
      fun q hq => hall q (List.mem_cons_of_mem p hq)
    simp only [encodeParts, if_neg h63]
    rw [ih (buf ++ p.length :: p) (cnt + 1 + p.length) hrest]
    simp only [nameWire, List.length_append, List.length_cons,
      List.cons_append, List.append_assoc, Res.ok.injEq, Prod.mk.injEq]
    exact ⟨by omega, trivial⟩

/-- When some label exceeds 63 bytes, the `encode_str` loop fails with a
`NameLengthExceeded` error carrying that label's length. -/
theorem encodeParts_err_of_long :
    ∀ (parts : List (List Nat)) (buf : List Nat) (cnt : Nat),
      (∃ p ∈ parts, 63 < p.length) →
      ∃ n t, encodeParts parts buf cnt = .err (.NameLengthExceeded n t) ∧
        63 < n := by
  intro parts
  induction parts with
  | nil => intro buf cnt h; rcases h with ⟨p, hp, _⟩; cases hp
  | cons p rest ih =>
    intro buf cnt h
    by_cases hp : 63 < p.length
    · exact ⟨p.length, p, by simp [encodeParts, if_pos hp], hp⟩
    · rcases h with ⟨q, hq, hq63⟩
      rcases List.mem_cons.mp hq with rfl | hq'
      · exact absurd hq63 hp
      · rcases ih (buf ++ p.length :: p) (cnt + 1 + p.length) ⟨q, hq', hq63⟩
          with ⟨n, t, heq, hn⟩
        exact ⟨n, t, by simp [encodeParts, if_neg hp, heq], hn⟩

/-- C7: `encode_str` fails with `NameLengthExceeded` as soon as a
dot-separated label is longer than 63 bytes; when every label is at most 63
bytes it succeeds and appends each label as a length byte followed by its
bytes, terminated by a zero byte, returning the number of bytes written. -/
theorem c7_encode_str_label_limit (s buf : List Nat) :
    ((∀ p ∈ s.splitOn 46, p.length ≤ 63) →
      encode_str s buf =
        .ok ((nameWire (s.splitOn 46)).length, buf ++ nameWire (s.splitOn 46))) ∧
    ((∃ p ∈ s.splitOn 46, 63 < p.length) →
      ∃ n t, encode_str s buf = .err (.NameLengthExceeded n t) ∧ 63 < n) := by
  constructor
  · intro hall
    have := encodeParts_ok_of_short (s.splitOn 46) buf 0 hall
    simpa [encode_str] using this
  · intro hex
    exact encodeParts_err_of_long (s.splitOn 46) buf 0 hex

/-- Witness for `c7_encode_str_label_limit`: a single 63-byte label
encodes successfully. -/
theorem c7_encode_str_label_limit_witness :
    (∀ p ∈ (List.replicate 63 97).splitOn 46, p.length ≤ 63) ∧
    encode_str (List.replicate 63 97) [] =
      .ok ((nameWire ((List.replicate 63 97).splitOn 46)).length,
        [] ++ nameWire ((List.replicate 63 97).splitOn 46)) :=
  ⟨by decide, (c7_encode_str_label_limit (List.replicate 63 97) []).1 (by decide)⟩

/-- The `encode_str` loop only appends to the buffer. -/
theorem encodeParts_prefix :
    ∀ (parts : List (List Nat)) (buf : List Nat) (cnt n : Nat)
      (out : List Nat),
      encodeParts parts buf cnt = .ok (n, out) → ∃ d, out = buf ++ d := by
  intro parts
  induction parts with
  | nil =>
    intro buf cnt n out h
    simp only [encodeParts, Res.ok.injEq, Prod.mk.injEq] at h
    exact ⟨[0], h.2.symm⟩
  | cons p rest ih =>
    intro buf cnt n out h
    by_cases hp : 63 < p.length
    · simp [encodeParts, if_pos hp] at h
    · simp only [encodeParts, if_neg hp] at h
      rcases ih (buf ++ p.length :: p) (cnt + 1 + p.length) n out h with ⟨d, hd⟩
      exact ⟨p.length :: p ++ d, by simpa [List.append_assoc] using hd⟩

/-- `encode_str` only appends to the buffer. -/
theorem encode_str_prefix (s buf : List Nat) (n : Nat) (out : List Nat)
    (h : encode_str s buf = .ok (n, out)) : ∃ d, out = buf ++ d :=
  encodeParts_prefix (s.splitOn 46) buf 0 n out h

/-- `Question::to_bytes` only appends to the buffer. -/
theorem question_to_bytes_prefix (q : Question) (buf : List Nat) (n : Nat)
    (out : List Nat) (h : q.to_bytes buf = .ok (n, out)) :
    ∃ d, out = buf ++ d := by
  unfold Question.to_bytes at h
  cases hq : encode_str q.q_name buf with
  | err e => rw [hq] at h; cases h
  | panic => rw [hq] at h; cases h
  | ok v =>
    obtain ⟨n1, buf1⟩ := v
    rw [hq] at h
    simp only [RRType.to_bytes, DnsClass.to_bytes, Res.ok.injEq,
      Prod.mk.injEq] at h
    rcases encode_str_prefix q.q_name buf n1 buf1 hq with ⟨d, rfl⟩
    exact ⟨d ++ u16be q.q_type.toU16 ++ u16be q.q_class.toU16,
      by simp [← h.2, List.append_assoc]⟩

/-- `ResourceRecord::to_bytes` only appends to the buffer. -/
theorem rr_to_bytes_prefix (r : ResourceRecord) (buf : List Nat) (n : Nat)
    (out : List Nat) (h : r.to_bytes buf = .ok (n, out)) :
    ∃ d, out = buf ++ d := by
  unfold ResourceRecord.to_bytes at h
  cases hq : encode_str r.name buf with
  | err e => rw [hq] at h; cases h
  | panic => rw [hq] at h; cases h
  | ok v =>
    obtain ⟨n1, buf1⟩ := v
    rw [hq] at h
    cases hr : r.data.to_bytes [] with
    | err e => simp only [DnsClass.to_bytes, hr] at h; cases h
    | panic => simp only [DnsClass.to_bytes, hr] at h; cases h
    | ok w =>
      obtain ⟨rdlength, rdata⟩ := w
      simp only [DnsClass.to_bytes, hr, Res.ok.injEq, Prod.mk.injEq] at h
      rcases encode_str_prefix r.name buf n1 buf1 hq with ⟨d, rfl⟩
      exact ⟨d ++ u16be r.data.as_u16 ++ u16be r.class'.toU16 ++
        u32be r.ttl ++ u16be rdlength ++ rdata,
        by simp [← h.2, List.append_assoc]⟩

/-- A section-encoding loop only appends to the buffer, provided the
element encoder does. -/
theorem encodeSection_prefix {α : Type}
    (f : α → List Nat → Res (Nat × List Nat))
    (hf : ∀ x buf n out, f x buf = .ok (n, out) → ∃ d, out = buf ++ d) :
    ∀ (xs : List α) (cnt : Nat) (buf : List Nat) (n : Nat) (out : List Nat),
      encodeSection f xs cnt buf = .ok (n, out) → ∃ d, out = buf ++ d := by
  intro xs
  induction xs with
  | nil =>
    intro cnt buf n out h
    simp only [encodeSection, Res.ok.injEq, Prod.mk.injEq] at h
    exact ⟨[], by simp [h.2]⟩
  | cons x rest ih =>
    intro cnt buf n out h
    unfold encodeSection at h
    cases hx : f x buf with
    | err e => rw [hx] at h; cases h
    | panic => rw [hx] at h; cases h
    | ok v =>
      obtain ⟨n1, buf1⟩ := v
      rw [hx] at h
      rcases hf x buf n1 buf1 hx with ⟨d1, rfl⟩
      rcases ih (cnt + n1) (buf ++ d1) n out h with ⟨d2, hd2⟩
      exact ⟨d1 ++ d2, by simpa [List.append_assoc] using hd2⟩

/-- C9: whenever `Message::to_bytes` succeeds (into an empty buffer), the
four section-count fields at byte offsets 4-5, 6-7, 8-9, 10-11 of the
output are the big-endian 16-bit (`len() as u16`) lengths of the live
`questions`, `answers`, `name_servers` and `additional_records` sequences;
the `Header` type stores no count field that could disagree. -/
theorem c9_counts_from_live_lengths (m : Message) (n : Nat) (out : List Nat)
    (henc : Message.to_bytes m [] = .ok (n, out)) :
    out.get? 4 = some (m.questions.length % 65536 / 256) ∧
    out.get? 5 = some (m.questions.length % 256) ∧
    out.get? 6 = some (m.answers.length % 65536 / 256) ∧
    out.get? 7 = some (m.answers.length % 256) ∧
    out.get? 8 = some (m.name_servers.length % 65536 / 256) ∧
    out.get? 9 = some (m.name_servers.length % 256) ∧
    out.get? 10 = some (m.additional_records.length % 65536 / 256) ∧
    out.get? 11 = some (m.additional_records.length % 256) := by
  unfold Message.to_bytes at henc
  split at henc
  · cases henc
  · cases henc
  rename_i n0 b0 heq0
  cases hop : m.header.opcode.as_u8 with
  | err e => unfold Header.to_bytes at heq0; rw [hop] at heq0; cases heq0
  | panic => unfold Header.to_bytes at heq0; rw [hop] at heq0; cases heq0
  | ok op =>
    rw [header_to_bytes_ok m.header m op hop] at heq0
    injection heq0 with heq0
    injection heq0 with h12 hb0
    subst h12
    subst hb0
    split at henc
    · cases henc
    · cases henc
    rename_i n1 b1 heq1
    rcases encodeSection_prefix Question.to_bytes question_to_bytes_prefix
      m.questions 12 _ n1 b1 heq1 with ⟨d1, rfl⟩
    split at henc
    · cases henc
    · cases henc
    rename_i n2 b2 heq2
    rcases encodeSection_prefix ResourceRecord.to_bytes rr_to_bytes_prefix
      m.answers n1 _ n2 b2 heq2 with ⟨d2, rfl⟩
    split at henc
    · cases henc
    · cases henc
    rename_i n3 b3 heq3
    rcases encodeSection_prefix ResourceRecord.to_bytes rr_to_bytes_prefix
      m.name_servers n2 _ n3 b3 heq3 with ⟨d3, rfl⟩
    split at henc
    · cases henc
    · cases henc
    rename_i n4 b4 heq4
    rcases encodeSection_prefix ResourceRecord.to_bytes rr_to_bytes_prefix
      m.additional_records n3 _ n4 b4 heq4 with ⟨d4, rfl⟩
    injection henc with henc
    injection henc with hn hout
    subst hn
    subst hout
    simp [u16be, List.get?, List.append_assoc]

/-- Witness for `c9_counts_from_live_lengths`: a message with one question
encodes with question count 1 and the other counts 0. -/
theorem c9_counts_from_live_lengths_witness :
    Message.to_bytes
      { header := { id := 0, qr := false, opcode := .Query, aa := false,
                    tc := false, rd := false, ra := false, ad := false,
                    cd := false, rcode := .NoError },
        questions := [{ q_name := [97], q_type := .A, q_class := .IN }],
        answers := [], name_servers := [], additional_records := [] } [] =
      .ok (19, [0, 0, 0, 0, 0, 1, 0, 0, 0, 0, 0, 0, 1, 97, 0, 0, 1, 0, 1]) ∧
    ([0, 0, 0, 0, 0, 1, 0, 0, 0, 0, 0, 0, 1, 97, 0, 0, 1, 0, 1] :
        List Nat).get? 4 = some 0 ∧
    ([0, 0, 0, 0, 0, 1, 0, 0, 0, 0, 0, 0, 1, 97, 0, 0, 1, 0, 1] :
        List Nat).get? 5 = some 1 := by
  have h : Message.to_bytes
      { header := { id := 0, qr := false, opcode := .Query, aa := false,
                    tc := false, rd := false, ra := false, ad := false,
                    cd := false, rcode := .NoError },
        questions := [{ q_name := [97], q_type := .A, q_class := .IN }],
        answers := [], name_servers := [], additional_records := [] } [] =
      .ok (19, [0, 0, 0, 0, 0, 1, 0, 0, 0, 0, 0, 0, 1, 97, 0, 0, 1, 0, 1]) := by
    decide
  have hc := c9_counts_from_live_lengths _ 19 _ h
  exact ⟨h, hc.1, hc.2.1⟩

/-- Decoding a bare 12-byte header with zero section counts: the flag word
is read bit-by-bit (the reserved bit must be 0), and the four empty
sections parse trivially. -/
theorem from_bytes_header_only (b0 b1 b2 b3 : Nat)
    (h0 : b0 < 256) (h1 : b1 < 256) (h2 : b2 < 256) (h3 : b3 < 256)
    (hres : b3 / 64 % 2 = 0) :
    Message.from_bytes [b0, b1, b2, b3, 0, 0, 0, 0, 0, 0, 0, 0] =
      .ok { header := { id := b0 * 256 + b1, qr := b2 / 128 % 2 == 1,
                        opcode := decodeOpCode (b2 / 8 % 16),
                        aa := b2 / 4 % 2 == 1, tc := b2 / 2 % 2 == 1,
                        rd := b2 % 2 == 1, ra := b3 / 128 % 2 == 1,
                        ad := b3 / 32 % 2 == 1, cd := b3 / 16 % 2 == 1,
                        rcode := decodeRCode (b3 % 16) },
            questions := [], answers := [], name_servers := [],
            additional_records := [] } := by
  unfold Message.from_bytes as_message read_header
  simp [Nat.mod_eq_of_lt h0, Nat.mod_eq_of_lt h1, Nat.mod_eq_of_lt h2,
    Nat.mod_eq_of_lt h3, hres, readN, resolveQuestionList, resolveRecordList,
    mapFromIrr]

/-- C6: encoding a message whose header opcode is `Unknown v` with `v > 15`
fails with `ReservedOpCode`; with `Unknown 15` (and a 4-bit rcode) encoding
succeeds and decoding the encoded bytes yields opcode `Unknown 15` again. -/
theorem c6_four_bit_opcode_guard (h : Header) (v : Nat) :
    (h.opcode = .Unknown v → 15 < v →
      Message.to_bytes
        { header := h, questions := [], answers := [], name_servers := [],
          additional_records := [] } [] = .err .ReservedOpCode) ∧
    (h.opcode = .Unknown 15 → h.rcode.as_u8 ≤ 15 →
      ∃ out m',
        Message.to_bytes
          { header := h, questions := [], answers := [], name_servers := [],
            additional_records := [] } [] = .ok (12, out) ∧
        Message.from_bytes out = .ok m' ∧
        m'.header.opcode = .Unknown 15) := by
  constructor
  · intro hop hv
    have hasu8 : h.opcode.as_u8 = .err .ReservedOpCode := by
      rw [hop]; simp [OpCode.as_u8, hv]
    simp [Message.to_bytes, Header.to_bytes, hasu8]
  · intro hop hrc
    have hasu8 : h.opcode.as_u8 = .ok 15 := by rw [hop]; decide
    have e1 := flagByte1_eq h.qr h.aa h.tc h.rd 15 (by norm_num)
    have e2 := flagByte2_eq h.rd h.ad h.cd h.rcode.as_u8 hrc
    have hq : (if h.qr then (128:Nat) else 0) = 0 ∨
        (if h.qr then (128:Nat) else 0) = 128 := by cases h.qr <;> simp
    have ha : (if h.aa then (4:Nat) else 0) = 0 ∨
        (if h.aa then (4:Nat) else 0) = 4 := by cases h.aa <;> simp
    have ht : (if h.tc then (2:Nat) else 0) = 0 ∨
        (if h.tc then (2:Nat) else 0) = 2 := by cases h.tc <;> simp
    have hr1 : (if h.rd then (1:Nat) else 0) = 0 ∨
        (if h.rd then (1:Nat) else 0) = 1 := by cases h.rd <;> simp
    have hr128 : (if h.rd then (128:Nat) else 0) = 0 ∨
        (if h.rd then (128:Nat) else 0) = 128 := by cases h.rd <;> simp
    have had : (if h.ad then (32:Nat) else 0) = 0 ∨
        (if h.ad then (32:Nat) else 0) = 32 := by cases h.ad <;> simp
    have hcd : (if h.cd then (16:Nat) else 0) = 0 ∨
        (if h.cd then (16:Nat) else 0) = 16 := by cases h.cd <;> simp
    have hb : Message.to_bytes
        { header := h, questions := [], answers := [], name_servers := [],
          additional_records := [] } [] =
        .ok (12, [h.id % 65536 / 256, h.id % 256,
          (if h.qr then 128 else 0) + 8 * 15 + (if h.aa then 4 else 0) +
            (if h.tc then 2 else 0) + (if h.rd then 1 else 0),
          (if h.rd then 128 else 0) + (if h.ad then 32 else 0) +
            (if h.cd then 16 else 0) + h.rcode.as_u8,
          0, 0, 0, 0, 0, 0, 0, 0]) := by
      have hh := header_to_bytes_ok h
        { header := h, questions := [], answers := [], name_servers := [],
          additional_records := [] } 15 hasu8
      simp only [Message.to_bytes, hh, encodeSection, u16be]
      simp only [show (15:Nat) <<< 3 = 120 from rfl,
        show (8 * 15:Nat) = 120 from rfl] at e1 ⊢
      simp [e1, e2]
    refine ⟨_, _, hb, from_bytes_header_only _ _ _ _ (by omega) (by omega)
      (by omega) (by omega) (by omega), ?_⟩
    have hop15 : ((if h.qr then (128:Nat) else 0) + 8 * 15 +
        (if h.aa then 4 else 0) + (if h.tc then 2 else 0) +
        (if h.rd then 1 else 0)) / 8 % 16 = 15 := by omega
    simp [hop15, decodeOpCode]

/-- Witness for `c6_four_bit_opcode_guard`: `Unknown 16` fails to encode,
`Unknown 15` encodes and round-trips its opcode. -/
theorem c6_four_bit_opcode_guard_witness :
    (Message.to_bytes
      { header := { id := 0, qr := false, opcode := .Unknown 16, aa := false,
                    tc := false, rd := false, ra := false, ad := false,
                    cd := false, rcode := .NoError },
        questions := [], answers := [], name_servers := [],
        additional_records := [] } [] = .err .ReservedOpCode) ∧
    (∃ out m',
      Message.to_bytes
        { header := { id := 0, qr := false, opcode := .Unknown 15, aa := false,
                      tc := false, rd := false, ra := false, ad := false,
                      cd := false, rcode := .NoError },
          questions := [], answers := [], name_servers := [],
          additional_records := [] } [] = .ok (12, out) ∧
      Message.from_bytes out = .ok m' ∧
      m'.header.opcode = .Unknown 15) :=
  ⟨(c6_four_bit_opcode_guard
      { id := 0, qr := false, opcode := .Unknown 16, aa := false, tc := false,
        rd := false, ra := false, ad := false, cd := false,
        rcode := .NoError } 16).1 rfl (by norm_num),
   (c6_four_bit_opcode_guard
      { id := 0, qr := false, opcode := .Unknown 15, aa := false, tc := false,
        rd := false, ra := false, ad := false, cd := false,
        rcode := .NoError } 15).2 rfl (by decide)⟩

/-- C8: header decoding never fails on unrecognized opcode/rcode values —
for every 4-bit opcode `op` and rcode `rc`, the 12-byte header carrying
them decodes successfully; values outside the recognized sets come back as
`Unknown(value)` rather than an error. -/
theorem c8_unknown_opcode_rcode_preserved :
    ∀ op < 16, ∀ rc < 16,
      Message.from_bytes [0, 0, op * 8, rc, 0, 0, 0, 0, 0, 0, 0, 0] =
        .ok { header := { id := 0, qr := false, opcode := decodeOpCode op,
                          aa := false, tc := false, rd := false, ra := false,
                          ad := false, cd := false,
                          rcode := decodeRCode rc },
              questions := [], answers := [], name_servers := [],
              additional_records := [] } ∧
      (¬(op = 0 ∨ op = 1 ∨ op = 2) → decodeOpCode op = .Unknown op) ∧
      (¬(rc = 0 ∨ rc = 1 ∨ rc = 2 ∨ rc = 3 ∨ rc = 4 ∨ rc = 5) →
        decodeRCode rc = .Unknown rc) := by
  intro op hop rc hrc
  interval_cases op <;> interval_cases rc <;>
    exact ⟨by decide, by decide, by decide⟩

/-- Witness for `c8_unknown_opcode_rcode_preserved` at opcode 7, rcode 9. -/
theorem c8_unknown_opcode_rcode_preserved_witness :
    Message.from_bytes [0, 0, 7 * 8, 9, 0, 0, 0, 0, 0, 0, 0, 0] =
      .ok { header := { id := 0, qr := false, opcode := decodeOpCode 7,
                        aa := false, tc := false, rd := false, ra := false,
                        ad := false, cd := false, rcode := decodeRCode 9 },
            questions := [], answers := [], name_servers := [],
            additional_records := [] } ∧
    decodeOpCode 7 = .Unknown 7 ∧ decodeRCode 9 = .Unknown 9 :=
  ⟨(c8_unknown_opcode_rcode_preserved 7 (by norm_num) 9 (by norm_num)).1,
   (c8_unknown_opcode_rcode_preserved 7 (by norm_num) 9 (by norm_num)).2.1
     (by decide),
   (c8_unknown_opcode_rcode_preserved 7 (by norm_num) 9 (by norm_num)).2.2
     (by decide)⟩

/-- Every compression offset produced by the `read_names` loop is a 14-bit
value (two tag bits stripped, 6 + 8 value bits). -/
theorem readNamesF_ptr_lt :
    ∀ (fuel : Nat) (input rem : List Nat) (names : List Name),
      readNamesF fuel input = some (.ok (rem, names)) →
      ∀ p, Name.pointer p ∈ names → p < 16384 := by
  intro fuel
  induction fuel with
  | zero => intro input rem names h; cases h
  | succ f ih =>
    intro input rem names h p hp
    cases input with
    | nil => simp [readNamesF] at h
    | cons b rest =>
      simp only [readNamesF] at h
      by_cases hflag : b / 64 % 4 = 3
      · rw [if_pos hflag] at h
        cases rest with
        | nil => simp at h
        | cons b2 rest2 =>
          simp only [Option.some.injEq, Res.ok.injEq, Prod.mk.injEq] at h
          obtain ⟨-, hnames⟩ := h
          rw [← hnames] at hp
          simp only [List.mem_singleton, Name.pointer.injEq] at hp
          subst hp
          omega
      · rw [if_neg hflag] at h
        by_cases hlen : b % 256 = 0
        · rw [if_pos hlen] at h
          simp only [Option.some.injEq, Res.ok.injEq, Prod.mk.injEq] at h
          obtain ⟨-, hnames⟩ := h
          rw [← hnames] at hp
          cases hp
        · rw [if_neg hlen] at h
          by_cases hshort : rest.length < b % 256
          · rw [if_pos hshort] at h; simp at h
          · rw [if_neg hshort] at h
            by_cases hutf : utf8Valid (rest.take (b % 256)) = true
            · rw [if_pos hutf] at h
              cases hrec : readNamesF f (rest.drop (b % 256)) with
              | none => rw [hrec] at h; simp at h
              | some r =>
                rw [hrec] at h
                cases r with
                | err e => simp at h
                | panic => simp at h
                | ok v =>
                  obtain ⟨rem', names'⟩ := v
                  simp only [Option.some.injEq, Res.ok.injEq,
                    Prod.mk.injEq] at h
                  obtain ⟨-, hnames⟩ := h
                  rw [← hnames] at hp
                  rcases List.mem_cons.mp hp with hh | hh
                  · cases hh
                  · exact ih _ _ _ hrec p hh
            · rw [if_neg hutf] at h; simp at h

/-- Wrapper form of `readNamesF_ptr_lt` for `read_names`. -/
theorem read_names_ptr_lt (input rem : List Nat) (names : List Name)
    (h : read_names input = .ok (rem, names)) :
    ∀ p, Name.pointer p ∈ names → p < 16384 := by
  unfold read_names at h
  cases hrec : readNamesF (input.length + 1) input with
  | none => rw [hrec] at h; cases h
  | some r =>
    rw [hrec] at h
    dsimp only at h
    rw [h] at hrec
    exact readNamesF_ptr_lt _ _ _ _ hrec

/-- The visited-offset set only grows across one resolution step, given
that the recursive call also only grows it. -/
theorem resolveStep_mono (input : List Nat)
    (recur : List Name → Finset Nat → Option (Res (List Name × Finset Nat)))
    (hrec : ∀ ns s out, recur ns s = some (.ok out) → s ⊆ out.2) :
    ∀ (names : List Name) (seen : Finset Nat) (out : List Name × Finset Nat),
      resolveStep input recur names seen = some (.ok out) → seen ⊆ out.2 := by
  intro names
  induction names with
  | nil =>
    intro seen out h
    simp only [resolveStep, Option.some.injEq, Res.ok.injEq] at h
    rw [← h]
  | cons n rest ih =>
    intro seen out h
    obtain ⟨ns', s'⟩ := out
    cases n with
    | pointer ptr =>
      simp only [resolveStep] at h
      by_cases hmem : ptr ∈ seen
      · rw [if_pos hmem] at h; simp at h
      · rw [if_neg hmem] at h
        by_cases hlen : input.length < ptr
        · rw [if_pos hlen] at h; simp at h
        · rw [if_neg hlen] at h
          cases hrn : read_names (input.drop ptr) with
          | err e => rw [hrn] at h; simp at h
          | panic => rw [hrn] at h; simp at h
          | ok v =>
            obtain ⟨rem, inner⟩ := v
            rw [hrn] at h
            dsimp only at h
            cases hr : recur inner (insert ptr seen) with
            | none => rw [hr] at h; simp at h
            | some r =>
              rw [hr] at h
              cases r with
              | err e => simp at h
              | panic => simp at h
              | ok w =>
                obtain ⟨inner', seen1⟩ := w
                have hsub1 : insert ptr seen ⊆ seen1 := hrec _ _ _ hr
                dsimp only at h
                cases hrest : resolveStep input recur rest seen1 with
                | none => rw [hrest] at h; simp at h
                | some r2 =>
                  rw [hrest] at h
                  cases r2 with
                  | err e => simp at h
                  | panic => simp at h
                  | ok w2 =>
                    obtain ⟨rest', seen2⟩ := w2
                    simp only [Option.some.injEq, Res.ok.injEq,
                      Prod.mk.injEq] at h
                    have hsub2 : seen1 ⊆ seen2 := ih seen1 (rest', seen2) hrest
                    rw [← h.2]
                    exact ((Finset.subset_insert ptr seen).trans hsub1).trans
                      hsub2
    | name lbl =>
      simp only [resolveStep] at h
      cases hrest : resolveStep input recur rest seen with
      | none => rw [hrest] at h; simp at h
      | some r2 =>
        rw [hrest] at h
        cases r2 with
        | err e => simp at h
        | panic => simp at h
        | ok w2 =>
          obtain ⟨rest', seen2⟩ := w2
          simp only [Option.some.injEq, Res.ok.injEq, Prod.mk.injEq] at h
          rw [← h.2]
          exact ih seen (rest', seen2) hrest
    | resolvedPtr ns2 =>
      simp only [resolveStep] at h
      cases hrest : resolveStep input recur rest seen with
      | none => rw [hrest] at h; simp at h
      | some r2 =>
        rw [hrest] at h
        cases r2 with
        | err e => simp at h
        | panic => simp at h
        | ok w2 =>
          obtain ⟨rest', seen2⟩ := w2
          simp only [Option.some.injEq, Res.ok.injEq, Prod.mk.injEq] at h
          rw [← h.2]
          exact ih seen (rest', seen2) hrest

/-- The visited-offset set only grows across `resolve_names`. -/
theorem resolveNamesF_mono :
    ∀ (fuel : Nat) (input : List Nat) (names : List Name) (seen : Finset Nat)
      (out : List Name × Finset Nat),
      resolveNamesF fuel input names seen = some (.ok out) → seen ⊆ out.2 := by
  intro fuel
  induction fuel with
  | zero => intro input names seen out h; cases h
  | succ f ih =>
    intro input names seen out h
    exact resolveStep_mono input (resolveNamesF f input)
      (fun ns s o hh => ih input ns s o hh) names seen out h

/-- One resolution step cannot run out of fuel when the remaining fuel
exceeds the number of unvisited 14-bit offsets, provided the recursive
call enjoys the same property at one unit less fuel. -/
theorem resolveStep_isSome_aux (f : Nat) (input : List Nat)
    (hrecSome : ∀ ns s, (∀ p, Name.pointer p ∈ ns → p < 16384) →
      (Finset.range 16384 \ s).card < f →
      (resolveNamesF f input ns s).isSome = true) :
    ∀ (names : List Name) (seen : Finset Nat),
      (∀ p, Name.pointer p ∈ names → p < 16384) →
      (Finset.range 16384 \ seen).card < f + 1 →
      (resolveStep input (resolveNamesF f input) names seen).isSome = true := by
  intro names
  induction names with
  | nil => intro seen _ _; simp [resolveStep]
  | cons n rest ih =>
    intro seen hptr hcard
    cases n with
    | pointer ptr =>
      have hptrHead : ptr < 16384 := hptr ptr (List.mem_cons_self _ _)
      simp only [resolveStep]
      by_cases hmem : ptr ∈ seen
      · simp [hmem]
      · rw [if_neg hmem]
        by_cases hlen : input.length < ptr
        · simp [hlen]
        · rw [if_neg hlen]
          cases hrn : read_names (input.drop ptr) with
          | err e => simp
          | panic => simp
          | ok v =>
            obtain ⟨rem, inner⟩ := v
            have hinner : ∀ p, Name.pointer p ∈ inner → p < 16384 :=
              read_names_ptr_lt _ _ _ hrn
            have hmemd : ptr ∈ Finset.range 16384 \ seen := by
              simp [Finset.mem_sdiff, Finset.mem_range, hptrHead, hmem]
            have hcard' : (Finset.range 16384 \ insert ptr seen).card < f := by
              have hset : Finset.range 16384 \ insert ptr seen =
                  (Finset.range 16384 \ seen).erase ptr := by
                ext x
                simp only [Finset.mem_sdiff, Finset.mem_erase,
                  Finset.mem_insert, Finset.mem_range]
                tauto
              have hpos : 0 < (Finset.range 16384 \ seen).card :=
                Finset.card_pos.mpr ⟨ptr, hmemd⟩
              rw [hset, Finset.card_erase_of_mem hmemd]
              omega
            have hrecs := hrecSome inner (insert ptr seen) hinner hcard'
            cases hrec : resolveNamesF f input inner (insert ptr seen) with
            | none => rw [hrec] at hrecs; simp at hrecs
            | some r =>
              cases r with
              | err e => simp [hrec]
              | panic => simp [hrec]
              | ok w =>
                obtain ⟨inner', seen1⟩ := w
                have hsub : seen ⊆ seen1 :=
                  (Finset.subset_insert ptr seen).trans
                    (resolveNamesF_mono f input inner (insert ptr seen)
                      (inner', seen1) hrec)
                have hcard1 : (Finset.range 16384 \ seen1).card < f + 1 := by
                  have hsubset : Finset.range 16384 \ seen1 ⊆
                      Finset.range 16384 \ seen := by
                    intro x hx
                    rw [Finset.mem_sdiff] at hx ⊢
                    exact ⟨hx.1, fun hc => hx.2 (hsub hc)⟩
                  have := Finset.card_le_card hsubset
                  omega
                have hrest := ih seen1
                  (fun p hp => hptr p (List.mem_cons_of_mem _ hp)) hcard1
                dsimp only
                rw [hrec]
                dsimp only
                cases hres2 : resolveStep input (resolveNamesF f input) rest
                    seen1 with
                | none => rw [hres2] at hrest; simp at hrest
                | some r2 => cases r2 <;> simp [hres2]
    | name lbl =>
      simp only [resolveStep]
      have hrest := ih seen (fun p hp => hptr p (List.mem_cons_of_mem _ hp))
        hcard
      cases hres2 : resolveStep input (resolveNamesF f input) rest seen with
      | none => rw [hres2] at hrest; simp at hrest
      | some r2 => cases r2 <;> simp [hres2]
    | resolvedPtr ns2 =>
      simp only [resolveStep]
      have hrest := ih seen (fun p hp => hptr p (List.mem_cons_of_mem _ hp))
        hcard
      cases hres2 : resolveStep input (resolveNamesF f input) rest seen with
      | none => rw [hres2] at hrest; simp at hrest
      | some r2 => cases r2 <;> simp [hres2]

/-- `resolve_names` on names whose pointers are 14-bit offsets never runs
out of fuel once the fuel exceeds the number of unvisited offsets. -/
theorem resolveNamesF_isSome_of_card :
    ∀ (fuel : Nat) (input : List Nat) (names : List Name) (seen : Finset Nat),
      (∀ p, Name.pointer p ∈ names → p < 16384) →
      (Finset.range 16384 \ seen).card < fuel →
      (resolveNamesF fuel input names seen).isSome = true := by
  intro fuel
  induction fuel with
  | zero => intro input names seen _ hcard; exact absurd hcard (by omega)
  | succ f ih =>
    intro input names seen hptr hcard
    exact resolveStep_isSome_aux f input (fun ns s h1 h2 => ih input ns s h1 h2)
      names seen hptr hcard

/-- C3 termination core: with the wrapper's fuel `resolveFuel = 16386`,
the pointer-resolution pass always completes — on every buffer, every name
list (even with arbitrary, not-14-bit top-level offsets) and every initial
visited set.  Nested offsets read by `read_names` are 14-bit, so the
visited set bounds the recursion depth. -/
theorem resolveNamesF_isSome (input : List Nat) (names : List Name)
    (seen : Finset Nat) :
    (resolveNamesF resolveFuel input names seen).isSome = true := by
  show (resolveStep input (resolveNamesF 16385 input) names seen).isSome = true
  induction names generalizing seen with
  | nil => simp [resolveStep]
  | cons n rest ih =>
    cases n with
    | pointer ptr =>
      simp only [resolveStep]
      by_cases hmem : ptr ∈ seen
      · simp [hmem]
      · rw [if_neg hmem]
        by_cases hlen : input.length < ptr
        · simp [hlen]
        · rw [if_neg hlen]
          cases hrn : read_names (input.drop ptr) with
          | err e => simp
          | panic => simp
          | ok v =>
            obtain ⟨rem, inner⟩ := v
            have hinner : ∀ p, Name.pointer p ∈ inner → p < 16384 :=
              read_names_ptr_lt _ _ _ hrn
            have hcard : (Finset.range 16384 \ insert ptr seen).card < 16385 := by
              have := Finset.card_le_card
                (Finset.sdiff_subset (s := Finset.range 16384)
                  (t := insert ptr seen))
              simp [Finset.card_range] at this
              omega
            have hrecs := resolveNamesF_isSome_of_card 16385 input inner
              (insert ptr seen) hinner hcard
            cases hrec : resolveNamesF 16385 input inner (insert ptr seen) with
            | none => rw [hrec] at hrecs; simp at hrecs
            | some r =>
              cases r with
              | err e => simp [hrec]
              | panic => simp [hrec]
              | ok w =>
                obtain ⟨inner', seen1⟩ := w
                dsimp only
                rw [hrec]
                dsimp only
                have hrest := ih seen1
                cases hres2 : resolveStep input (resolveNamesF 16385 input)
                    rest seen1 with
                | none => rw [hres2] at hrest; simp at hrest
                | some r2 => cases r2 <;> simp [hres2]
    | name lbl =>
      simp only [resolveStep]
      have hrest := ih seen
      cases hres2 : resolveStep input (resolveNamesF 16385 input) rest seen with
      | none => rw [hres2] at hrest; simp at hrest
      | some r2 => cases r2 <;> simp [hres2]
    | resolvedPtr ns2 =>
      simp only [resolveStep]
      have hrest := ih seen
      cases hres2 : resolveStep input (resolveNamesF 16385 input) rest seen with
      | none => rw [hres2] at hrest; simp at hrest
      | some r2 => cases r2 <;> simp [hres2]

/-- Walking a name list, the first pointer whose offset is already in the
visited set stops resolution with `CircularReference`. -/
theorem resolveStep_revisit (input : List Nat)
    (recur : List Name → Finset Nat → Option (Res (List Name × Finset Nat))) :
    ∀ (pre : List Name) (ptr : Nat) (rest : List Name) (seen : Finset Nat),
      (∀ q, Name.pointer q ∉ pre) → ptr ∈ seen →
      resolveStep input recur (pre ++ Name.pointer ptr :: rest) seen =
        some (.err .CircularReference) := by
  intro pre
  induction pre with
  | nil => intro ptr rest seen _ hmem; simp [resolveStep, hmem]
  | cons n pre' ih =>
    intro ptr rest seen hpre hmem
    have hpre' : ∀ q, Name.pointer q ∉ pre' :=
      fun q hq => hpre q (List.mem_cons_of_mem _ hq)
    have hih := ih ptr rest seen hpre' hmem
    cases n with
    | pointer q => exact absurd (List.mem_cons_self _ _) (hpre q)
    | name lbl =>
      simp only [List.cons_append, resolveStep, List.append_eq, hih]
    | resolvedPtr ns =>
      simp only [List.cons_append, resolveStep, List.append_eq, hih]

/-- An 18-byte message whose single question's name is a compression
pointer to offset 12 — i.e. to itself — so resolving it revisits offset 12. -/
def c3_input : List Nat :=
  [0, 0, 0, 0, 0, 1, 0, 0, 0, 0, 0, 0] ++ [192, 12] ++ [0, 1] ++ [0, 1]

/-- C3 counterexample: on the self-pointing buffer `c3_input` the
resolution pass does raise `CircularReference` inside `as_message`, but
`Message::from_bytes` reports `ParsingError`, not `CircularReference`:
`read_message`'s `map_res` discards the `MessageError` and the
`From<nom::Err>` conversion re-labels it (src/dns-message/src/parser.rs
line 314, src/dns-message/src/error.rs lines 22-26).  So decode never
fails with `CircularReference` as the claim states. -/
theorem c3_decode_reports_parsing_error :
    as_message c3_input = .err .CircularReference ∧
    Message.from_bytes c3_input = .err .ParsingError ∧
    MessageError.ParsingError ≠ MessageError.CircularReference := by decide

/-- C3 as amended: the pointer-resolution pass terminates on every input
(with the wrapper fuel `resolveFuel` it always yields a result — the
per-name visited set bounds the recursion); whenever the walk reaches a
pointer whose 14-bit offset is already in the visited set,
`resolve_names` fails with `CircularReference`; and any error raised
during `as_message` — the `CircularReference` included — surfaces from
`Message::from_bytes` as `ParsingError` (never as `CircularReference`),
because `read_message`'s `map_res` discards the inner error. -/
theorem c3_cycle_detection (input : List Nat) (names : List Name)
    (seen : Finset Nat) :
    (resolveNamesF resolveFuel input names seen).isSome = true ∧
    (∀ pre ptr rest, names = pre ++ Name.pointer ptr :: rest →
      (∀ q, Name.pointer q ∉ pre) → ptr ∈ seen →
      resolve_names input names seen = .err .CircularReference) ∧
    (∀ e, as_message input = .err e →
      Message.from_bytes input = .err .ParsingError) := by
  refine ⟨?_, ?_, ?_⟩
  · exact resolveNamesF_isSome input names seen
  · intro pre ptr rest hsplit hpre hmem
    subst hsplit
    have hstep := resolveStep_revisit input (resolveNamesF 16385 input)
      pre ptr rest seen hpre hmem
    unfold resolve_names
    rw [show resolveNamesF resolveFuel input
        (pre ++ Name.pointer ptr :: rest) seen =
      resolveStep input (resolveNamesF 16385 input)
        (pre ++ Name.pointer ptr :: rest) seen from rfl, hstep]
  · intro e h
    simp [Message.from_bytes, h]

/-- Witness for `c3_cycle_detection` on the self-pointing buffer
`c3_input`: its name list is `[pointer 12]`; with offset 12 already
visited the pass is rejected as circular, and the full decode of
`c3_input` reports `ParsingError`. -/
theorem c3_cycle_detection_witness :
    ((resolveNamesF resolveFuel c3_input [Name.pointer 12] {12}).isSome =
      true) ∧
    resolve_names c3_input [Name.pointer 12] {12} =
      .err .CircularReference ∧
    Message.from_bytes c3_input = .err .ParsingError :=
  ⟨(c3_cycle_detection c3_input [Name.pointer 12] {12}).1,
   (c3_cycle_detection c3_input [Name.pointer 12] {12}).2.1 [] 12 [] rfl
     (by intro q h; cases h) (by decide),
   (c3_cycle_detection c3_input [Name.pointer 12] {12}).2.2
     .CircularReference (by decide)⟩
